import Mathlib

/-!
Verification of the peer-synchronization core of the collaborative text
editor (src/text_editor_v2.py) against its natural-language specification.

The embedding models Python strings as lists of unicode scalar values
(`Str := List Char`), the JSON layer structurally (as an abstract syntax
tree: the repository's own codec logic is the packing and unpacking of the
four record fields; Python's `json.dumps`/`json.loads` string layer is
external library code that round-trips JSON values exactly), wall-clock
timestamps abstractly as integers carried verbatim by the codec, and the
tkinter text widget as a flat character sequence addressed by
`"line.column"` indices (1-based line, 0-based column), which is the
addressing scheme the code relies on.
-/

/-- Python strings are sequences of unicode code points; we model them as
lists of characters. -/
abbrev Str := List Char

/-- Wall-clock timestamps (`time.time()` floats) are advisory values that the
codec carries verbatim; they are modelled abstractly as integers. -/
abbrev Timestamp := Int

/-- JSON values, restricted to the shapes the wire protocol uses: strings,
numbers (timestamps) and flat objects. -/
inductive Json where
  | str (s : Str)
  | num (t : Timestamp)
  | obj (fields : List (Str × Json))
deriving Repr

/-- One atomic edit: `TextChange` from src/text_editor_v2.py lines 16-22.
`position` is a `"line.column"` tkinter index string; exactly the four
fields that `to_json` serializes. -/
structure TextChange where
  position : Str
  insert : Str
  delete : Str
  timestamp : Timestamp
deriving DecidableEq, Repr

def positionKey : Str := "position".toList
def insertKey : Str := "insert".toList
def deleteKey : Str := "delete".toList
def timestampKey : Str := "timestamp".toList

/-- Python dict key lookup (first binding wins; dict keys are unique). -/
def jsonLookup (k : Str) : List (Str × Json) → Option Json
  | [] => none
  | (k2, v) :: rest => if k2 = k then some v else jsonLookup k rest

/-- `TextChange.to_json` (lines 24-31): a flat object with the four fields,
in the order the code writes them. -/
def TextChange.to_json (c : TextChange) : Json :=
  Json.obj [(positionKey, Json.str c.position),
            (insertKey, Json.str c.insert),
            (deleteKey, Json.str c.delete),
            (timestampKey, Json.num c.timestamp)]

/-- `TextChange.from_json` (lines 33-41): reads the four fields out of the
decoded object; a missing field raises `KeyError` in Python (modelled as
`none`), a non-object payload likewise fails. -/
def TextChange.from_json (j : Json) : Option TextChange :=
  match j with
  | Json.obj fields =>
    match jsonLookup positionKey fields, jsonLookup insertKey fields,
          jsonLookup deleteKey fields, jsonLookup timestampKey fields with
    | some (Json.str p), some (Json.str i), some (Json.str d),
      some (Json.num t) => some ⟨p, i, d, t⟩
    | _, _, _, _ => none
  | _ => none

/-! ## Change detector (`CollaborativeTextEditor.on_text_change`, lines 378-431)

The editor state holds the widget content (what `text_area.get(1.0, END)`
returns), the stored snapshot `previous_content`, the reentrancy flag
`applying_remote_change` and the cursor position string returned by
`get_cursor_position`. -/

structure EditorState where
  content : Str
  previousContent : Str
  applyingRemoteChange : Bool
  cursor : Str
deriving DecidableEq, Repr

/-- The scan loop `for i in range(min(len(cur), len(prev))): if cur[i] != prev[i]: ... break`:
the first index below both lengths where the two strings differ, `none` when
no index in that range differs (i.e. one string extends the other). -/
def firstDiff : Str → Str → Option Nat
  | a :: as, b :: bs => if a ≠ b then some 0 else (firstDiff as bs).map (· + 1)
  | _, _ => none

/-- Insert branch (lines 399-403): `cur[i : i + len(cur) - len(prev)]` at the
first differing index, the empty string when the loop finds none. -/
def insertedSpan (cur prev : Str) : Str :=
  match firstDiff cur prev with
  | some i => (cur.drop i).take (cur.length - prev.length)
  | none => []

/-- Delete branch (lines 411-415): `prev[i : i + len(prev) - len(cur)]` at the
first differing index, the empty string when the loop finds none. -/
def deletedSpan (cur prev : Str) : Str :=
  match firstDiff cur prev with
  | some i => (prev.drop i).take (prev.length - cur.length)
  | none => []

def detectedInsertLog (t p : Str) : Str :=
  "Detected insert: ".toList ++ t ++ " at ".toList ++ p

def detectedDeleteLog (t p : Str) : Str :=
  "Detected delete: ".toList ++ t ++ " at ".toList ++ p

/-- Line 425 prints the serialized record; the log line is modelled by its
fixed leading text. -/
def broadcastingLog : Str := "Broadcasting change: ".toList

/-- Lines 394-418: build the change record (insert when the content grew,
delete otherwise) together with the debug line the branch prints. -/
def detectStep (now : Timestamp) (s : EditorState) : TextChange × Str :=
  if s.content.length > s.previousContent.length then
    let ins := insertedSpan s.content s.previousContent
    (⟨s.cursor, ins, [], now⟩, detectedInsertLog ins s.cursor)
  else
    let del := deletedSpan s.content s.previousContent
    (⟨s.cursor, [], del, now⟩, detectedDeleteLog del s.cursor)

/-- Result of one `on_text_change` invocation: the new editor state, the
record handed to `broadcast_change_sync` (if any), and the printed lines. -/
structure DetectResult where
  state : EditorState
  broadcast : Option TextChange
  logs : List Str
deriving Repr

/-- `on_text_change` (lines 378-431): return immediately when the reentrancy
flag is set or nothing changed; otherwise build the record, overwrite the
snapshot, and broadcast it only when one of its text fields is non-empty. -/
def onTextChange (now : Timestamp) (s : EditorState) : DetectResult :=
  if s.applyingRemoteChange then ⟨s, none, []⟩
  else if s.content = s.previousContent then ⟨s, none, []⟩
  else
    let step := detectStep now s
    let s2 := { s with previousContent := s.content }
    if step.1.insert ≠ [] ∨ step.1.delete ≠ [] then
      ⟨s2, some step.1, [step.2, broadcastingLog]⟩
    else
      ⟨s2, none, [step.2]⟩

/-! ## Claims about the codec and detector -/

/-- C1: decoding the encoding of any change record recovers the record
exactly, whatever its position, inserted text, deleted text (empty,
multi-line or Unicode) and timestamp. -/
theorem decode_encode_roundtrip (c : TextChange) :
    TextChange.from_json (TextChange.to_json c) = some c := by
  cases c
  rfl

/-- The scan loop finds exactly the least differing index when one exists
below both lengths. -/
theorem firstDiff_eq_some (a b : Str) (i : Nat)
    (hia : i < a.length) (hib : i < b.length)
    (hne : a.get? i ≠ b.get? i)
    (hleast : ∀ j, j < i → a.get? j = b.get? j) :
    firstDiff a b = some i := by
  induction a generalizing b i with
  | nil => simp at hia
  | cons x xs ih =>
    cases b with
    | nil => simp at hib
    | cons y ys =>
      cases i with
      | zero =>
        simp only [List.get?] at hne
        have hxy : x ≠ y := fun h => hne (by rw [h])
        simp [firstDiff, hxy]
      | succ k =>
        have hxy : x = y := by
          have := hleast 0 (Nat.succ_pos k)
          simpa [List.get?] using this
        have hrec : firstDiff xs ys = some k := by
          apply ih ys k (Nat.lt_of_succ_lt_succ (by simpa using hia))
            (Nat.lt_of_succ_lt_succ (by simpa using hib))
          · simpa [List.get?] using hne
          · intro j hj
            have := hleast (j + 1) (Nat.succ_lt_succ hj)
            simpa [List.get?] using this
        simp [firstDiff, hxy, hrec]

theorem span_slice_ne_nil (l : Str) (i k : Nat) (hi : i < l.length)
    (hk : 0 < k) : (l.drop i).take k ≠ [] := by
  apply List.ne_nil_of_length_pos
  rw [List.length_take, List.length_drop]
  exact lt_min hk (Nat.sub_pos_of_lt hi)

theorem ne_of_get?_ne {a b : Str} {i : Nat} (h : a.get? i ≠ b.get? i) :
    a ≠ b := fun he => h (by rw [he])

theorem onTextChange_insert_branch (now : Timestamp) (s : EditorState)
    (hflag : s.applyingRemoteChange = false)
    (hne : s.content ≠ s.previousContent)
    (hlen : s.previousContent.length < s.content.length)
    (hspan : insertedSpan s.content s.previousContent ≠ []) :
    onTextChange now s =
      ⟨{ s with previousContent := s.content },
       some ⟨s.cursor, insertedSpan s.content s.previousContent, [], now⟩,
       [detectedInsertLog (insertedSpan s.content s.previousContent) s.cursor,
        broadcastingLog]⟩ := by
  simp [onTextChange, detectStep, hflag, hne, hlen, hspan]

theorem onTextChange_delete_branch (now : Timestamp) (s : EditorState)
    (hflag : s.applyingRemoteChange = false)
    (hne : s.content ≠ s.previousContent)
    (hlen : ¬ s.previousContent.length < s.content.length)
    (hspan : deletedSpan s.content s.previousContent ≠ []) :
    onTextChange now s =
      ⟨{ s with previousContent := s.content },
       some ⟨s.cursor, [], deletedSpan s.content s.previousContent, now⟩,
       [detectedDeleteLog (deletedSpan s.content s.previousContent) s.cursor,
        broadcastingLog]⟩ := by
  simp [onTextChange, detectStep, hflag, hne, hlen, hspan]

/-- C2 counterexample: with snapshot `"ab"` and new content `"abcd"` (the text
`"cd"` appended at the end, cursor at `1.4`) the scan loop, which only runs
over indices below the shorter length, finds no differing index; the
detector builds a record with empty `insert` and broadcasts nothing, whereas
the claim requires an insertion record carrying `"cd"`. -/
theorem insert_detection_claim_fails :
    (onTextChange 0 ⟨"abcd".toList, "ab".toList, false, "1.4".toList⟩).broadcast
      = none := by decide

/-- C2 (amended): when the content grew and the two strings differ at some
index `i` below the old length (the least such index), the detector
broadcasts exactly one insertion record whose inserted text is
`new[i : i + (newLen - oldLen)]` and whose position is the cursor; when the
old content is a proper prefix of the new one the loop finds no differing
index and nothing is broadcast. -/
theorem insert_detection_amended (now : Timestamp) (s : EditorState) (i : Nat)
    (hflag : s.applyingRemoteChange = false)
    (hlen : s.previousContent.length < s.content.length)
    (hi : i < s.previousContent.length)
    (hne : s.content.get? i ≠ s.previousContent.get? i)
    (hleast : ∀ j, j < i → s.content.get? j = s.previousContent.get? j) :
    (onTextChange now s).broadcast =
      some ⟨s.cursor,
            (s.content.drop i).take (s.content.length - s.previousContent.length),
            [], now⟩ := by
  have hfd : firstDiff s.content s.previousContent = some i :=
    firstDiff_eq_some _ _ i (Nat.lt_trans hi hlen) hi hne hleast
  have hspanEq : insertedSpan s.content s.previousContent =
      (s.content.drop i).take (s.content.length - s.previousContent.length) := by
    simp [insertedSpan, hfd]
  have hspan : insertedSpan s.content s.previousContent ≠ [] := by
    rw [hspanEq]
    exact span_slice_ne_nil _ _ _ (Nat.lt_trans hi hlen) (Nat.sub_pos_of_lt hlen)
  rw [onTextChange_insert_branch now s hflag (ne_of_get?_ne hne) hlen hspan,
    hspanEq]

/-- Witness for the amended C2 at the spec's own insert scenario: snapshot
`"ab"`, content `"axb"`, cursor `1.2`; the record `{position: "1.2",
insert: "x", delete: ""}` is broadcast. -/
theorem insert_detection_amended_witness :
    (onTextChange 7 ⟨"axb".toList, "ab".toList, false, "1.2".toList⟩).broadcast
      = some ⟨"1.2".toList, "x".toList, [], 7⟩ := by
  have h := insert_detection_amended 7
    ⟨"axb".toList, "ab".toList, false, "1.2".toList⟩ 1
    rfl (by decide) (by decide) (by decide) (by decide)
  simpa using h

/-- C3 counterexample: with snapshot `"abcd"` and new content `"ab"` (the
trailing `"cd"` deleted, cursor at `1.2`) the scan loop finds no differing
index below the shorter length; the detector builds a record with empty
`delete` and broadcasts nothing, whereas the claim requires a deletion
record carrying `"cd"`. -/
theorem delete_detection_claim_fails :
    (onTextChange 0 ⟨"ab".toList, "abcd".toList, false, "1.2".toList⟩).broadcast
      = none := by decide

/-- C3 (amended): when the content strictly shrank and the two strings differ
at some index `i` below the new length (the least such index), the detector
broadcasts exactly one deletion record whose deleted text is
`old[i : i + (oldLen - newLen)]` and whose position is the cursor; when the
new content is a proper prefix of the old one, or the lengths are equal, the
computed deleted span is empty and nothing is broadcast. -/
theorem delete_detection_amended (now : Timestamp) (s : EditorState) (i : Nat)
    (hflag : s.applyingRemoteChange = false)
    (hlen : s.content.length < s.previousContent.length)
    (hi : i < s.content.length)
    (hne : s.content.get? i ≠ s.previousContent.get? i)
    (hleast : ∀ j, j < i → s.content.get? j = s.previousContent.get? j) :
    (onTextChange now s).broadcast =
      some ⟨s.cursor, [],
            (s.previousContent.drop i).take
              (s.previousContent.length - s.content.length),
            now⟩ := by
  have hfd : firstDiff s.content s.previousContent = some i :=
    firstDiff_eq_some _ _ i hi (Nat.lt_trans hi hlen) hne hleast
  have hspanEq : deletedSpan s.content s.previousContent =
      (s.previousContent.drop i).take
        (s.previousContent.length - s.content.length) := by
    simp [deletedSpan, hfd]
  have hspan : deletedSpan s.content s.previousContent ≠ [] := by
    rw [hspanEq]
    exact span_slice_ne_nil _ _ _ (Nat.lt_trans hi hlen) (Nat.sub_pos_of_lt hlen)
  rw [onTextChange_delete_branch now s hflag (ne_of_get?_ne hne)
    (Nat.not_lt.mpr (Nat.le_of_lt hlen)) hspan, hspanEq]

/-- Witness for the amended C3 at the spec's own delete scenario: snapshot
`"abc"`, content `"ac"`, cursor `1.1`; the record `{position: "1.1",
delete: "b"}` is broadcast. -/
theorem delete_detection_amended_witness :
    (onTextChange 7 ⟨"ac".toList, "abc".toList, false, "1.1".toList⟩).broadcast
      = some ⟨"1.1".toList, [], "b".toList, 7⟩ := by
  have h := delete_detection_amended 7
    ⟨"ac".toList, "abc".toList, false, "1.1".toList⟩ 1
    rfl (by decide) (by decide) (by decide) (by decide)
  simpa using h

/-- Substring test used to show that no diagnostic line mentions the word
`unsupported`. -/
def beginsWith : Str → Str → Bool
  | [], _ => true
  | _ :: _, [] => false
  | p :: ps, c :: cs => p = c && beginsWith ps cs

def containsSeq (pat s : Str) : Bool :=
  match s with
  | [] => beginsWith pat []
  | _ :: rest => beginsWith pat s || containsSeq pat rest

/-- C4 counterexample: for the equal-length in-place replace from snapshot
`"ab"` to content `"ba"` the code does not flag anything as unsupported: it
broadcasts nothing and its only diagnostic output is the generic
`Detected delete:` debug line, which contains no mention of the change being
unsupported — the change is silently dropped. -/
theorem equal_length_not_flagged :
    (onTextChange 0 ⟨"ba".toList, "ab".toList, false, "1.1".toList⟩).broadcast
        = none ∧
    (onTextChange 0 ⟨"ba".toList, "ab".toList, false, "1.1".toList⟩).logs
        = [detectedDeleteLog [] "1.1".toList] ∧
    ((onTextChange 0 ⟨"ba".toList, "ab".toList, false, "1.1".toList⟩).logs.all
        fun l => containsSeq "unsupported".toList l = false) := by
  refine ⟨by decide, by decide, ?_⟩
  decide

/-- C4 (amended): for every equal-length pair of differing contents the
detector broadcasts no record at all (the record it builds carries an empty
deleted span and is discarded by the non-empty filter before broadcast); the
change is silently dropped, with no explicit unsupported diagnostic, and the
snapshot is still overwritten with the new content. -/
theorem equal_length_silently_dropped (now : Timestamp) (s : EditorState)
    (hflag : s.applyingRemoteChange = false)
    (hlen : s.content.length = s.previousContent.length)
    (hne : s.content ≠ s.previousContent) :
    (onTextChange now s).broadcast = none ∧
    (onTextChange now s).state = { s with previousContent := s.content } := by
  have hnotgt : ¬ s.content.length > s.previousContent.length := by omega
  have hdel : deletedSpan s.content s.previousContent = [] := by
    unfold deletedSpan
    cases firstDiff s.content s.previousContent with
    | none => rfl
    | some i => simp [hlen]
  constructor <;>
    simp [onTextChange, detectStep, hflag, hne, hnotgt, hdel]

/-- Witness for the amended C4: the equal-length replace `"ab"` → `"ba"`
broadcasts nothing and only refreshes the snapshot. -/
theorem equal_length_silently_dropped_witness :
    (onTextChange 0 ⟨"ba".toList, "ab".toList, false, "1.0".toList⟩).broadcast
        = none ∧
    (onTextChange 0 ⟨"ba".toList, "ab".toList, false, "1.0".toList⟩).state
        = ⟨"ba".toList, "ba".toList, false, "1.0".toList⟩ :=
  equal_length_silently_dropped 0
    ⟨"ba".toList, "ab".toList, false, "1.0".toList⟩
    rfl (by decide) (by decide)

/-- C10: every record the detector hands to `broadcast_change_sync` has
exactly one of its two text fields non-empty: insert branch records carry an
empty `delete`, delete branch records an empty `insert`, and records with
both fields empty are discarded by the guard on line 424. -/
theorem detectStep_one_field_empty (now : Timestamp) (s : EditorState) :
    (detectStep now s).1.insert = [] ∨ (detectStep now s).1.delete = [] := by
  unfold detectStep
  split
  · exact Or.inr rfl
  · exact Or.inl rfl

theorem broadcast_record_exactly_one_field (now : Timestamp) (s : EditorState)
    (c : TextChange) (h : (onTextChange now s).broadcast = some c) :
    (c.insert ≠ [] ∧ c.delete = []) ∨ (c.insert = [] ∧ c.delete ≠ []) := by
  unfold onTextChange at h
  split at h
  · simp at h
  · split at h
    · simp at h
    · dsimp only at h
      split at h
      · rename_i hguard
        have hc : (detectStep now s).1 = c := by simpa using h
        rw [← hc]
        rcases detectStep_one_field_empty now s with he | he
        · exact Or.inr ⟨he, hguard.resolve_left fun hA => hA he⟩
        · exact Or.inl ⟨hguard.resolve_right (fun hB => hB he), he⟩
      · simp at h

/-- Witness for C10 at the insert scenario: the broadcast record there has a
non-empty insert and an empty delete. -/
theorem broadcast_record_exactly_one_field_witness :
    (TextChange.mk "1.2".toList "x".toList [] 7).insert ≠ [] ∧
    (TextChange.mk "1.2".toList "x".toList [] 7).delete = [] := by
  have h := broadcast_record_exactly_one_field 7
    ⟨"axb".toList, "ab".toList, false, "1.2".toList⟩
    ⟨"1.2".toList, "x".toList, [], 7⟩ (by decide)
  rcases h with h | h
  · exact h
  · exact absurd h.1 (by decide)



/-! ## Change applier (`CollaborativeTextEditor.apply_remote_change`, lines 433-484)

The tkinter text widget is modelled as the flat character sequence the code
reads with `get(1.0, END)`; a `"line.column"` index string (1-based line,
0-based column) resolves to a flat character offset, `pos+Nc` index
arithmetic advances the offset by `N` characters (newlines counting as one
character), and `get`/`insert`/`delete` are the corresponding slice,
splice and removal operations. -/

def digitVal (c : Char) : Option Nat :=
  if c.isDigit then some (c.toNat - 48) else none

def parseDigits : Str → Nat → Option Nat
  | [], acc => some acc
  | c :: rest, acc =>
    match digitVal c with
    | some d => parseDigits rest (acc * 10 + d)
    | none => none

/-- Parse a non-empty all-digit string as a natural number. -/
def parseNatStr : Str → Option Nat
  | [] => none
  | c :: rest => parseDigits (c :: rest) 0

/-- Split an index string at its first dot. -/
def splitAtDot : Str → Option (Str × Str)
  | [] => none
  | c :: rest =>
    if c = '.' then some ([], rest)
    else (splitAtDot rest).map fun p => (c :: p.1, p.2)

/-- Parse a tkinter `"line.column"` index string. -/
def parsePos (s : Str) : Option (Nat × Nat) :=
  match splitAtDot s with
  | some (l, c) =>
    match parseNatStr l, parseNatStr c with
    | some ln, some col => some (ln, col)
    | _, _ => none
  | none => none

/-- Number of characters strictly before the start of 1-based line `l`. -/
def lineStartOffset : Str → Nat → Nat
  | _, 0 => 0
  | _, 1 => 0
  | [], _ + 2 => 0
  | c :: cs, n + 2 =>
    1 + lineStartOffset cs (if c = '\n' then n + 1 else n + 2)

/-- Resolve a `"line.column"` index string to a flat character offset. -/
def resolveOffset (content : Str) (pos : Str) : Option Nat :=
  (parsePos pos).map fun p => lineStartOffset content p.1 + p.2

/-- The document split into its lines (what tkinter's line addressing walks
over); used only to state when an index is in range, where the flat-offset
model and the widget agree. -/
def splitLines : Str → List Str
  | [] => [[]]
  | c :: rest =>
    if c = '\n' then [] :: splitLines rest
    else
      match splitLines rest with
      | l :: ls => (c :: l) :: ls
      | [] => [[c]]

/-- A `"line.column"` index is in range for a document: the line exists and
the column does not pass the end of that line. -/
def posInRange (content : Str) (pos : Str) : Prop :=
  ∃ p, parsePos pos = some p ∧ 1 ≤ p.1 ∧ p.1 ≤ (splitLines content).length ∧
    p.2 ≤ ((splitLines content).getD (p.1 - 1) []).length

instance (content pos : Str) : Decidable (posInRange content pos) := by
  unfold posInRange
  exact inferInstance

/-- `text_area.get(a, b)` over flat offsets. -/
def widgetGet (content : Str) (a b : Nat) : Str := (content.drop a).take (b - a)

/-- `text_area.insert(a, s)` over flat offsets. -/
def widgetInsert (content : Str) (a : Nat) (s : Str) : Str :=
  content.take a ++ s ++ content.drop a

/-- `text_area.delete(a, b)` over flat offsets. -/
def widgetDelete (content : Str) (a b : Nat) : Str :=
  content.take a ++ content.drop b

/-- Convert a flat offset back to a `"line.column"` pair (used by the widget
to normalize `pos+Nc` into the index the cursor mark is set to). -/
def offsetToPos (content : Str) (off : Nat) : Nat × Nat :=
  let pre := content.take off
  (1 + pre.count '\n', (pre.reverse.takeWhile (· ≠ '\n')).length)

def renderPos (p : Nat × Nat) : Str :=
  Nat.toDigits 10 p.1 ++ ".".toList ++ Nat.toDigits 10 p.2

def appliedInsertLog (t p : Str) : Str :=
  "Applied insert: \x27".toList ++ t ++ "\x27 at ".toList ++ p

def appliedDeleteLog (t p : Str) : Str :=
  "Applied delete: \x27".toList ++ t ++ "\x27 at ".toList ++ p

def appliedDeleteOneLog (p : Str) : Str :=
  "Applied delete: 1 character at ".toList ++ p

/-- The `ConflictMismatch` diagnostic (line 464): the warning printed when
the text found at the position does not match the record's deleted text. -/
def warnMismatchLog (d t p : Str) : Str :=
  "Warning: Text to delete \x27".toList ++ d ++
    "\x27 doesn\x27t match \x27".toList ++ t ++
    "\x27 at position ".toList ++ p

def errApplyLog : Str := "Error applying remote change".toList

/-- `apply_remote_change` (lines 433-484), unrolled into the sequence of
editor states a re-entrant `on_text_change` callback could observe: after
the reentrancy flag is raised (line 436), after the widget mutation, after
the snapshot refresh (line 476), and after the flag is cleared in the
`finally` block (line 484).  A malformed or unparsable index makes the
widget raise; the `except` block (lines 478-481) logs the error, skips the
snapshot refresh, and the `finally` block still clears the flag. -/
def applyRemoteChangeStates (s : EditorState) (ch : TextChange) :
    List EditorState × List Str :=
  let s1 := { s with applyingRemoteChange := true }
  if ch.insert ≠ [] then
    match resolveOffset s1.content ch.position with
    | none =>
      ([s1, { s1 with applyingRemoteChange := false }], [errApplyLog])
    | some off =>
      let content2 := widgetInsert s1.content off ch.insert
      let cur2 := renderPos (offsetToPos content2 (off + ch.insert.length))
      let s2 := { s1 with content := content2, cursor := cur2 }
      let s3 := { s2 with previousContent := content2 }
      ([s1, s2, s3, { s3 with applyingRemoteChange := false }],
       [appliedInsertLog ch.insert ch.position])
  else if ch.delete ≠ [] then
    match resolveOffset s1.content ch.position with
    | none =>
      ([s1, { s1 with applyingRemoteChange := false }], [errApplyLog])
    | some off =>
      let dl := ch.delete.length
      let found := widgetGet s1.content off (off + dl)
      if found = ch.delete then
        let content2 := widgetDelete s1.content off (off + dl)
        let s2 := { s1 with content := content2, cursor := ch.position }
        let s3 := { s2 with previousContent := content2 }
        ([s1, s2, s3, { s3 with applyingRemoteChange := false }],
         [appliedDeleteLog ch.delete ch.position])
      else
        let content2 := widgetDelete s1.content off (off + 1)
        let s2 := { s1 with content := content2, cursor := ch.position }
        let s3 := { s2 with previousContent := content2 }
        ([s1, s2, s3, { s3 with applyingRemoteChange := false }],
         [warnMismatchLog ch.delete found ch.position])
  else
    let s3 := { s1 with previousContent := s1.content }
    ([s1, s3, { s3 with applyingRemoteChange := false }], [])

/-- Final state and diagnostics of one `apply_remote_change` call. -/
def applyRemoteChange (s : EditorState) (ch : TextChange) :
    EditorState × List Str :=
  let r := applyRemoteChangeStates s ch
  (r.1.getLastD s, r.2)

/-! ## Claims about the applier -/

/-- C5: applying a deletion record whose expected text does not match the
document deletes exactly one character at the record's position (the
fallback on line 466), surfaces the mismatch warning — the
`ConflictMismatch` diagnostic — and completes without raising (the model
function is total and the reentrancy flag is restored).  The range
hypotheses pin the inputs to indices on which the flat-offset model and the
tkinter widget agree. -/
theorem mismatch_fallback_deletes_one (s : EditorState) (ch : TextChange)
    (off : Nat)
    (hins : ch.insert = [])
    (hdel : ch.delete ≠ [])
    (hoff : resolveOffset s.content ch.position = some off)
    (_hrange : posInRange s.content ch.position)
    (hlt : off < s.content.length)
    (hmis : widgetGet s.content off (off + ch.delete.length) ≠ ch.delete) :
    (applyRemoteChange s ch).1.content =
        s.content.take off ++ s.content.drop (off + 1) ∧
    (applyRemoteChange s ch).1.content.length = s.content.length - 1 ∧
    (applyRemoteChange s ch).2 =
        [warnMismatchLog ch.delete
          (widgetGet s.content off (off + ch.delete.length)) ch.position] ∧
    (applyRemoteChange s ch).1.applyingRemoteChange = false := by
  have hins' : ¬ ch.insert ≠ [] := fun h => h hins
  refine ⟨?_, ?_, ?_, ?_⟩ <;>
    simp [applyRemoteChange, applyRemoteChangeStates, hins', hdel, hoff, hmis,
      widgetDelete, List.length_take, List.length_drop] <;>
    omega

/-- Witness for C5 at the spec's own mismatch scenario: applying
`{position: "1.0", delete: "Z"}` to `"abc"` deletes exactly the one
character `"a"`, yielding `"bc"`, and emits the mismatch warning. -/
theorem mismatch_fallback_deletes_one_witness :
    (applyRemoteChange ⟨"abc".toList, "abc".toList, false, "1.0".toList⟩
        ⟨"1.0".toList, [], "Z".toList, 0⟩).1.content = "bc".toList ∧
    (applyRemoteChange ⟨"abc".toList, "abc".toList, false, "1.0".toList⟩
        ⟨"1.0".toList, [], "Z".toList, 0⟩).2 =
      [warnMismatchLog "Z".toList "a".toList "1.0".toList] := by
  have h := mismatch_fallback_deletes_one
    ⟨"abc".toList, "abc".toList, false, "1.0".toList⟩
    ⟨"1.0".toList, [], "Z".toList, 0⟩ 0
    rfl (by decide) (by decide) (by decide) (by decide) (by decide)
  exact ⟨h.1.trans (by decide), h.2.2.1.trans (by decide)⟩

/-- C6: the code does NOT perform the single-character deletion the claim
describes.  A record whose `insert` and `delete` are both empty falls
through both the `if change.insert:` and `elif change.delete:` guards —
`elif change.delete:` is false for the empty string — so the
delete-one-character branch on lines 467-470 is unreachable and the
document is left untouched: applying `{position: "1.0", delete: ""}` to
`"abc"` leaves `"abc"`, not `"bc"`. -/
theorem empty_delete_record_is_noop :
    (applyRemoteChange ⟨"abc".toList, "abc".toList, false, "1.0".toList⟩
        ⟨"1.0".toList, [], [], 0⟩).1.content = "abc".toList ∧
    (applyRemoteChange ⟨"abc".toList, "abc".toList, false, "1.0".toList⟩
        ⟨"1.0".toList, [], [], 0⟩).2 = [] := by
  exact ⟨by decide, by decide⟩

theorem onTextChange_flag_set (now : Timestamp) (m : EditorState)
    (h : m.applyingRemoteChange = true) : onTextChange now m = ⟨m, none, []⟩ := by
  simp [onTextChange, h]

theorem onTextChange_snapshot_current (now : Timestamp) (m : EditorState)
    (h : m.previousContent = m.content) : onTextChange now m = ⟨m, none, []⟩ := by
  by_cases hf : m.applyingRemoteChange <;> simp [onTextChange, hf, h]

/-- C7: every intermediate state of `apply_remote_change` that a re-entrant
`on_text_change` callback could observe (all states before the `finally`
block clears the flag) has the reentrancy flag set, and `on_text_change` on
such a state returns immediately — no state change, no broadcast, no log;
after the call completes the flag is clear again and (whenever the record's
index resolved, i.e. the widget did not raise) the snapshot was refreshed to
the mutated content, so a subsequent `on_text_change` sees no difference and
rebroadcasts nothing. -/
theorem apply_suppresses_detection (now : Timestamp) (s : EditorState)
    (ch : TextChange) :
    (∀ m ∈ (applyRemoteChangeStates s ch).1.dropLast,
        m.applyingRemoteChange = true ∧ onTextChange now m = ⟨m, none, []⟩) ∧
    (applyRemoteChange s ch).1.applyingRemoteChange = false ∧
    (∀ off, resolveOffset s.content ch.position = some off →
        (applyRemoteChange s ch).1.previousContent =
          (applyRemoteChange s ch).1.content ∧
        (onTextChange now (applyRemoteChange s ch).1).broadcast = none) := by
  have key : ∀ m : EditorState, m.applyingRemoteChange = true →
      m.applyingRemoteChange = true ∧ onTextChange now m = ⟨m, none, []⟩ :=
    fun m h => ⟨h, onTextChange_flag_set now m h⟩
  have snap : ∀ m : EditorState, m.previousContent = m.content →
      m.previousContent = m.content ∧ (onTextChange now m).broadcast = none :=
    fun m h => ⟨h, by rw [onTextChange_snapshot_current now m h]⟩
  by_cases hi : ch.insert ≠ []
  · rcases hro : resolveOffset s.content ch.position with _ | off
    · refine ⟨?_, ?_, ?_⟩
      · intro m hm
        simp [applyRemoteChangeStates, hi, hro] at hm
        exact hm ▸ key _ rfl
      · simp [applyRemoteChange, applyRemoteChangeStates, hi, hro]
      · intro off h
        exact absurd h (by simp)
    · refine ⟨?_, ?_, ?_⟩
      · intro m hm
        simp [applyRemoteChangeStates, hi, hro] at hm
        rcases hm with hm | hm | hm <;> exact hm ▸ key _ rfl
      · simp [applyRemoteChange, applyRemoteChangeStates, hi, hro]
      · intro off2 h
        refine snap _ ?_
        simp [applyRemoteChange, applyRemoteChangeStates, hi, hro]
  · by_cases hd : ch.delete ≠ []
    · rcases hro : resolveOffset s.content ch.position with _ | off
      · refine ⟨?_, ?_, ?_⟩
        · intro m hm
          simp [applyRemoteChangeStates, hi, hd, hro] at hm
          exact hm ▸ key _ rfl
        · simp [applyRemoteChange, applyRemoteChangeStates, hi, hd, hro]
        · intro off h
          exact absurd h (by simp)
      · by_cases hfound :
            widgetGet s.content off (off + ch.delete.length) = ch.delete
        · refine ⟨?_, ?_, ?_⟩
          · intro m hm
            simp [applyRemoteChangeStates, hi, hd, hro, hfound] at hm
            rcases hm with hm | hm | hm <;> exact hm ▸ key _ rfl
          · simp [applyRemoteChange, applyRemoteChangeStates, hi, hd, hro,
              hfound]
          · intro off2 h
            refine snap _ ?_
            simp [applyRemoteChange, applyRemoteChangeStates, hi, hd, hro,
              hfound]
        · refine ⟨?_, ?_, ?_⟩
          · intro m hm
            simp [applyRemoteChangeStates, hi, hd, hro, hfound] at hm
            rcases hm with hm | hm | hm <;> exact hm ▸ key _ rfl
          · simp [applyRemoteChange, applyRemoteChangeStates, hi, hd, hro,
              hfound]
          · intro off2 h
            refine snap _ ?_
            simp [applyRemoteChange, applyRemoteChangeStates, hi, hd, hro,
              hfound]
    · refine ⟨?_, ?_, ?_⟩
      · intro m hm
        simp [applyRemoteChangeStates, hi, hd] at hm
        rcases hm with hm | hm <;> exact hm ▸ key _ rfl
      · simp [applyRemoteChange, applyRemoteChangeStates, hi, hd]
      · intro off2 h
        refine snap _ ?_
        simp [applyRemoteChange, applyRemoteChangeStates, hi, hd]

/-- Witness for C7: for the concrete remote insertion of `"x"` at `"1.0"`
into document `"ab"`, the first observable intermediate state has the flag
set and is ignored by `on_text_change`, and after completion the snapshot
matches the content so nothing is rebroadcast. -/
theorem apply_suppresses_detection_witness :
    ((⟨"ab".toList, "ab".toList, true, "1.0".toList⟩ :
        EditorState).applyingRemoteChange = true ∧
     onTextChange 0 (⟨"ab".toList, "ab".toList, true, "1.0".toList⟩ :
        EditorState) =
       ⟨⟨"ab".toList, "ab".toList, true, "1.0".toList⟩, none, []⟩) ∧
    ((applyRemoteChange ⟨"ab".toList, "ab".toList, false, "1.0".toList⟩
        ⟨"1.0".toList, "x".toList, [], 0⟩).1.previousContent =
      (applyRemoteChange ⟨"ab".toList, "ab".toList, false, "1.0".toList⟩
        ⟨"1.0".toList, "x".toList, [], 0⟩).1.content ∧
     (onTextChange 0 (applyRemoteChange
        ⟨"ab".toList, "ab".toList, false, "1.0".toList⟩
        ⟨"1.0".toList, "x".toList, [], 0⟩).1).broadcast = none) := by
  have h := apply_suppresses_detection 0
    ⟨"ab".toList, "ab".toList, false, "1.0".toList⟩
    ⟨"1.0".toList, "x".toList, [], 0⟩
  exact ⟨h.1 _ (by decide), h.2.2 0 (by decide)⟩

/-! ## Peer network (`P2PNetwork`, lines 44-268)

The stream directory `self.streams` maps peer ids to stream handles
(Python dict: unique keys, insertion order).  A stream handle is an opaque
transport object; the model keeps its only behaviour observable from this
module, whether a write to it succeeds.  The per-peer read loop is driven
by the sequence of outcomes the transport produces: a successful read
carrying a payload, an empty read (stream closed), or a raised read error. -/

abbrev PeerId := Str

structure StreamHandle where
  writeOk : Bool
deriving DecidableEq, Repr

abbrev StreamMap := List (PeerId × StreamHandle)

/-- `get_connected_peers` (lines 258-260): `list(self.streams.keys())`. -/
def get_connected_peers (streams : StreamMap) : List PeerId :=
  streams.map (·.1)

/-- `del self.streams[peer_id]` (dict deletion by key). -/
def eraseStream (streams : StreamMap) (pid : PeerId) : StreamMap :=
  streams.filter fun e => e.1 ≠ pid

/-- What one received message decodes to: bytes that are not valid UTF-8,
text that is not valid JSON, or a JSON value (which `from_json` may still
reject when a field is missing). -/
inductive Payload where
  | notUtf8
  | notJson
  | jsonVal (j : Json)
deriving Repr

/-- One iteration's transport outcome inside the read loop. -/
inductive ReadEvent where
  | readError
  | readClosed
  | readMsg (p : Payload)
deriving Repr

/-- Observable effects of the read loop: backoff sleeps, changes handed to
`on_text_change_received`, and printed lines. -/
inductive NetAction where
  | sleep (secs : Nat)
  | deliver (c : TextChange)
  | logLine (s : Str)
deriving Repr

def logNoData (peer : PeerId) : Str :=
  "No data received from ".toList ++ peer ++ ", stream may be closed".toList

def logDecodeErr (peer : PeerId) : Str :=
  "Error decoding message from ".toList ++ peer

def logReceived (peer : PeerId) : Str :=
  "Received change from ".toList ++ peer

def logInvalidJson (peer : PeerId) : Str :=
  "Invalid JSON from ".toList ++ peer

def logProcessErr (peer : PeerId) : Str :=
  "Error processing message from ".toList ++ peer

def logReadErr (peer : PeerId) : Str :=
  "Error reading from ".toList ++ peer

def logTooMany (peer : PeerId) : Str :=
  "Too many errors from ".toList ++ peer ++ ", closing stream".toList

/-- Lines 131-149: decode the received bytes and hand the change to the
editor callback; decode failures of either layer are logged and the loop
continues — they do not touch the retry counter, which was already reset by
the successful read. -/
def processPayload (peer : PeerId) (p : Payload) : List NetAction :=
  match p with
  | Payload.notUtf8 => [NetAction.logLine (logDecodeErr peer)]
  | Payload.notJson => [NetAction.logLine (logInvalidJson peer)]
  | Payload.jsonVal j =>
    match TextChange.from_json j with
    | some c => [NetAction.logLine (logReceived peer), NetAction.deliver c]
    | none => [NetAction.logLine (logProcessErr peer)]

/-- Outcome of running the read loop over a finite prefix of transport
events: whether the loop broke out, the retry counter it would carry into
the next blocking read, and the effects it produced. -/
structure ReadLoopResult where
  terminated : Bool
  retryAfter : Nat
  actions : List NetAction
deriving Repr

/-- The loop body of `read_from_stream` (lines 116-157): `retry_count`
starts at 0 and `max_retries` is 3; an empty read breaks out; a successful
read resets the counter and processes the payload; a read error increments
the counter, breaks out once it reaches 3, and otherwise sleeps 1 second
and retries. -/
def readLoopAux (peer : PeerId) : Nat → List ReadEvent → ReadLoopResult
  | rc, [] => ⟨false, rc, []⟩
  | _, ReadEvent.readClosed :: _ =>
    ⟨true, 0, [NetAction.logLine (logNoData peer)]⟩
  | _, ReadEvent.readMsg p :: rest =>
    let r := readLoopAux peer 0 rest
    ⟨r.terminated, r.retryAfter, processPayload peer p ++ r.actions⟩
  | rc, ReadEvent.readError :: rest =>
    if rc + 1 ≥ 3 then
      ⟨true, rc + 1,
       [NetAction.logLine (logReadErr peer), NetAction.logLine (logTooMany peer)]⟩
    else
      let r := readLoopAux peer (rc + 1) rest
      ⟨r.terminated, r.retryAfter,
       NetAction.logLine (logReadErr peer) :: NetAction.sleep 1 :: r.actions⟩

/-- `read_from_stream` (lines 116-162): run the loop; when it breaks out,
the cleanup code removes the peer's entry from the stream directory. -/
def read_from_stream (streams : StreamMap) (peer : PeerId)
    (events : List ReadEvent) : StreamMap × ReadLoopResult :=
  let r := readLoopAux peer 0 events
  (if r.terminated then eraseStream streams peer else streams, r)

theorem readLoopAux_append (peer : PeerId) (xs ys : List ReadEvent) :
    ∀ rc : Nat, (readLoopAux peer rc xs).terminated = false →
    readLoopAux peer rc (xs ++ ys) =
      ⟨(readLoopAux peer (readLoopAux peer rc xs).retryAfter ys).terminated,
       (readLoopAux peer (readLoopAux peer rc xs).retryAfter ys).retryAfter,
       (readLoopAux peer rc xs).actions ++
         (readLoopAux peer (readLoopAux peer rc xs).retryAfter ys).actions⟩ := by
  induction xs with
  | nil => intro rc _; rfl
  | cons e rest ih =>
    intro rc h
    cases e with
    | readError =>
      by_cases h3 : rc + 1 ≥ 3
      · simp [readLoopAux, h3] at h
      · have h' : (readLoopAux peer (rc + 1) rest).terminated = false := by
          simpa [readLoopAux, h3] using h
        simp [readLoopAux, h3, ih (rc + 1) h', List.append_assoc]
    | readClosed => simp [readLoopAux] at h
    | readMsg p =>
      have h' : (readLoopAux peer 0 rest).terminated = false := by
        simpa [readLoopAux] using h
      simp [readLoopAux, ih 0 h', List.append_assoc]

theorem not_mem_peers_eraseStream (streams : StreamMap) (peer : PeerId) :
    peer ∉ get_connected_peers (eraseStream streams peer) := by
  intro h
  simp only [get_connected_peers, eraseStream, List.mem_map,
    List.mem_filter] at h
  obtain ⟨e, ⟨_, hne⟩, heq⟩ := h
  rw [decide_eq_true_eq] at hne
  exact hne heq

/-- C8: the read loop (i) retries a transient read error that is below the
3-failure budget after a 1-second backoff, carrying the incremented
consecutive-failure count into the continuation, (ii) resets the count to 0
on every successful read, whatever the payload, and (iii) terminates on the
third consecutive failure, after which the cleanup removes the connection,
so the peer no longer appears in `get_connected_peers`. -/
theorem read_error_retry_and_eviction (peer : PeerId) :
    (∀ (rc : Nat) (rest : List ReadEvent), rc + 1 < 3 →
      readLoopAux peer rc (ReadEvent.readError :: rest) =
        ⟨(readLoopAux peer (rc + 1) rest).terminated,
         (readLoopAux peer (rc + 1) rest).retryAfter,
         NetAction.logLine (logReadErr peer) :: NetAction.sleep 1 ::
           (readLoopAux peer (rc + 1) rest).actions⟩) ∧
    (∀ (rc : Nat) (p : Payload) (rest : List ReadEvent),
      readLoopAux peer rc (ReadEvent.readMsg p :: rest) =
        ⟨(readLoopAux peer 0 rest).terminated,
         (readLoopAux peer 0 rest).retryAfter,
         processPayload peer p ++ (readLoopAux peer 0 rest).actions⟩) ∧
    (∀ (streams : StreamMap) (pre es : List ReadEvent),
      (readLoopAux peer 0 pre).terminated = false →
      (readLoopAux peer 0 pre).retryAfter = 0 →
      (read_from_stream streams peer
          (pre ++ ReadEvent.readError :: ReadEvent.readError ::
            ReadEvent.readError :: es)).2.terminated = true ∧
      peer ∉ get_connected_peers
        (read_from_stream streams peer
          (pre ++ ReadEvent.readError :: ReadEvent.readError ::
            ReadEvent.readError :: es)).1) := by
  refine ⟨?_, ?_, ?_⟩
  · intro rc rest h3
    have h3' : ¬ rc + 1 ≥ 3 := by omega
    simp [readLoopAux, h3']
  · intro rc p rest
    simp [readLoopAux]
  · intro streams pre es hterm hrc
    have happ := readLoopAux_append peer pre
      (ReadEvent.readError :: ReadEvent.readError :: ReadEvent.readError :: es)
      0 hterm
    have htail : (readLoopAux peer 0
        (ReadEvent.readError :: ReadEvent.readError :: ReadEvent.readError ::
          es)).terminated = true := by
      simp [readLoopAux]
    have hfull : (readLoopAux peer 0
        (pre ++ ReadEvent.readError :: ReadEvent.readError ::
          ReadEvent.readError :: es)).terminated = true := by
      rw [happ, hrc]
      exact htail
    refine ⟨?_, ?_⟩
    · simp [read_from_stream, hfull]
    · simp only [read_from_stream, hfull, if_pos]
      exact not_mem_peers_eraseStream streams peer

/-- Witness for C8: a single transient error (count 0) sleeps 1 second and
retries; and with one successfully decoded-but-invalid message followed by
three consecutive read errors, the loop of peer `p1` terminates and `p1` is
gone from the connected peers of a two-peer directory. -/
theorem read_error_retry_and_eviction_witness :
    (readLoopAux "p1".toList 0 [ReadEvent.readError] =
      ⟨(readLoopAux "p1".toList 1 []).terminated,
       (readLoopAux "p1".toList 1 []).retryAfter,
       NetAction.logLine (logReadErr "p1".toList) :: NetAction.sleep 1 ::
         (readLoopAux "p1".toList 1 []).actions⟩) ∧
    ((read_from_stream [("p1".toList, ⟨true⟩), ("p2".toList, ⟨true⟩)]
        "p1".toList
        ([ReadEvent.readMsg Payload.notJson] ++ ReadEvent.readError ::
          ReadEvent.readError :: ReadEvent.readError :: [])).2.terminated
        = true ∧
     "p1".toList ∉ get_connected_peers
        (read_from_stream [("p1".toList, ⟨true⟩), ("p2".toList, ⟨true⟩)]
          "p1".toList
          ([ReadEvent.readMsg Payload.notJson] ++ ReadEvent.readError ::
            ReadEvent.readError :: ReadEvent.readError :: [])).1) := by
  have h := read_error_retry_and_eviction "p1".toList
  exact ⟨h.1 0 [] (by omega),
    h.2.2 [("p1".toList, ⟨true⟩), ("p2".toList, ⟨true⟩)]
      [ReadEvent.readMsg Payload.notJson] [] (by decide) (by decide)⟩

/-! ## Broadcast (`P2PNetwork.broadcast_change`, lines 189-218) -/

/-- Observable steps of one broadcast call: the single encoding of the
record, and per-peer write attempts (a successful write delivers the
encoded message; a raising write marks the peer failed). -/
inductive BroadcastAction where
  | enc (j : Json)
  | write (p : PeerId) (j : Json)
  | fail (p : PeerId)
deriving Repr

def isEncAction : BroadcastAction → Bool
  | BroadcastAction.enc _ => true
  | _ => false

/-- `broadcast_change` (lines 189-218): serialize the record once, iterate
over a copy of the stream directory writing the same encoded message to
each stream and collecting the peers whose write raised, then delete every
failed peer from the directory. -/
def broadcast_change (streams : StreamMap) (change : TextChange) :
    List BroadcastAction × StreamMap :=
  let data := TextChange.to_json change
  let acts := BroadcastAction.enc data ::
    streams.map fun e =>
      if e.2.writeOk then BroadcastAction.write e.1 data
      else BroadcastAction.fail e.1
  let failed := (streams.filter fun e => ! e.2.writeOk).map (·.1)
  (acts, failed.foldl eraseStream streams)

theorem foldl_eraseStream_subset :
    ∀ (qs : List PeerId) (l : StreamMap), (qs.foldl eraseStream l) ⊆ l := by
  intro qs
  induction qs with
  | nil => intro l; exact fun _ h => h
  | cons q rest ih =>
    intro l
    exact fun a ha => List.mem_of_mem_filter (ih (eraseStream l q) ha)

theorem mem_foldl_eraseStream_of_not_mem :
    ∀ (qs : List PeerId) (l : StreamMap) (pid : PeerId) (st : StreamHandle),
      (pid, st) ∈ l → pid ∉ qs → (pid, st) ∈ qs.foldl eraseStream l := by
  intro qs
  induction qs with
  | nil => intro l pid st h _; exact h
  | cons q rest ih =>
    intro l pid st h hnot
    have hq : pid ≠ q := fun he => hnot (he ▸ List.mem_cons_self q rest)
    have h1 : (pid, st) ∈ eraseStream l q := by
      simp only [eraseStream, List.mem_filter, decide_eq_true_eq]
      exact ⟨h, hq⟩
    exact ih (eraseStream l q) pid st h1
      fun hm => hnot (List.mem_cons_of_mem q hm)

theorem key_not_in_foldl_eraseStream :
    ∀ (qs : List PeerId) (l : StreamMap) (pid : PeerId), pid ∈ qs →
      ∀ e ∈ qs.foldl eraseStream l, e.1 ≠ pid := by
  intro qs
  induction qs with
  | nil => intro l pid h; exact absurd h (List.not_mem_nil pid)
  | cons q rest ih =>
    intro l pid hmem e he
    rcases List.mem_cons.mp hmem with rfl | hmem2
    · by_cases hrest : pid ∈ rest
      · exact ih (eraseStream l pid) pid hrest e he
      · have hsub : e ∈ eraseStream l pid :=
          foldl_eraseStream_subset rest (eraseStream l pid) he
        simp only [eraseStream, List.mem_filter, decide_eq_true_eq] at hsub
        exact hsub.2
    · exact ih (eraseStream l q) pid hmem2 e he

theorem nodup_keys_value_unique :
    ∀ (l : StreamMap), (l.map Prod.fst).Nodup →
      ∀ (pid : PeerId) (a b : StreamHandle),
        (pid, a) ∈ l → (pid, b) ∈ l → a = b := by
  intro l
  induction l with
  | nil => intro _ pid a b ha; exact absurd ha (List.not_mem_nil _)
  | cons e rest ih =>
    intro hnd pid a b ha hb
    have hnd' : (e.1 :: rest.map Prod.fst).Nodup := by
      simpa only [List.map_cons] using hnd
    have hnd1 : e.1 ∉ rest.map Prod.fst := (List.nodup_cons.mp hnd').1
    have hnd2 : (rest.map Prod.fst).Nodup := (List.nodup_cons.mp hnd').2
    rcases List.mem_cons.mp ha with rfl | ha2
    · rcases List.mem_cons.mp hb with heq | hb2
      · exact (congrArg Prod.snd heq.symm)
      · exact absurd (List.mem_map.mpr ⟨(pid, b), hb2, rfl⟩) hnd1
    · rcases List.mem_cons.mp hb with heq | hb2
      · rw [← heq] at hnd1
        exact absurd (List.mem_map.mpr ⟨(pid, a), ha2, rfl⟩) hnd1
      · exact ih hnd2 pid a b ha2 hb2

/-- C9: `broadcast_change` encodes the record exactly once (the action trace
opens with the single encode step and contains no other), attempts a write
of that same encoded message to every registered stream whose write
succeeds — a failure of any other peer's write does not remove those write
steps — and, after the attempt, every peer whose write failed is gone from
the directory while (keys being unique, as in a Python dict) every peer
whose write succeeded is still registered. -/
theorem broadcast_encodes_once_delivers_evicts (streams : StreamMap)
    (change : TextChange) :
    ((broadcast_change streams change).1.head? =
        some (BroadcastAction.enc (TextChange.to_json change))) ∧
    (((broadcast_change streams change).1.filter isEncAction).length = 1) ∧
    (∀ pid st, (pid, st) ∈ streams → st.writeOk = true →
      BroadcastAction.write pid (TextChange.to_json change) ∈
        (broadcast_change streams change).1) ∧
    (∀ pid st, (pid, st) ∈ streams → st.writeOk = false →
      pid ∉ get_connected_peers (broadcast_change streams change).2) ∧
    ((streams.map Prod.fst).Nodup →
      ∀ pid st, (pid, st) ∈ streams → st.writeOk = true →
        (pid, st) ∈ (broadcast_change streams change).2) := by
  refine ⟨rfl, ?_, ?_, ?_, ?_⟩
  · have hnone : (streams.map fun e =>
        if e.2.writeOk then BroadcastAction.write e.1 (TextChange.to_json change)
        else BroadcastAction.fail e.1).filter isEncAction = [] := by
      rw [List.filter_eq_nil_iff]
      intro a ha
      obtain ⟨e, _, rfl⟩ := List.mem_map.mp ha
      by_cases hw : e.2.writeOk <;> simp [hw, isEncAction]
    simp [broadcast_change, List.filter, isEncAction, hnone]
  · intro pid st hmem hok
    apply List.mem_cons_of_mem
    exact List.mem_map.mpr ⟨(pid, st), hmem, by simp [hok]⟩
  · intro pid st hmem hfail hpeers
    have hpidfailed : pid ∈ (streams.filter fun e => ! e.2.writeOk).map (·.1) :=
      List.mem_map.mpr ⟨(pid, st),
        List.mem_filter.mpr ⟨hmem, by simp [hfail]⟩, rfl⟩
    simp only [broadcast_change, get_connected_peers, List.mem_map] at hpeers
    obtain ⟨e, he, heq⟩ := hpeers
    exact key_not_in_foldl_eraseStream _ streams pid hpidfailed e he heq
  · intro hnd pid st hmem hok
    have hnotfailed : pid ∉ (streams.filter fun e => ! e.2.writeOk).map (·.1) := by
      intro hin
      obtain ⟨e, hef, heq⟩ := List.mem_map.mp hin
      have hememb := List.mem_filter.mp hef
      have : e = (pid, e.2) := by
        cases e; simp at heq; simp [heq]
      rw [this] at hememb
      have := nodup_keys_value_unique streams hnd pid st e.2 hmem hememb.1
      rw [← this] at hememb
      simp [hok] at hememb
    exact mem_foldl_eraseStream_of_not_mem _ streams pid st hmem hnotfailed

/-- Witness for C9 at the spec's broadcast scenario: three registered peers
where peer 2's write fails; peers 1 and 3 still get the encoded message and
peer 2 is evicted while peers 1 and 3 stay registered. -/
theorem broadcast_encodes_once_delivers_evicts_witness :
    (BroadcastAction.write "p1".toList
        (TextChange.to_json ⟨"1.0".toList, "x".toList, [], 0⟩) ∈
      (broadcast_change
        [("p1".toList, ⟨true⟩), ("p2".toList, ⟨false⟩), ("p3".toList, ⟨true⟩)]
        ⟨"1.0".toList, "x".toList, [], 0⟩).1) ∧
    (BroadcastAction.write "p3".toList
        (TextChange.to_json ⟨"1.0".toList, "x".toList, [], 0⟩) ∈
      (broadcast_change
        [("p1".toList, ⟨true⟩), ("p2".toList, ⟨false⟩), ("p3".toList, ⟨true⟩)]
        ⟨"1.0".toList, "x".toList, [], 0⟩).1) ∧
    ("p2".toList ∉ get_connected_peers
      (broadcast_change
        [("p1".toList, ⟨true⟩), ("p2".toList, ⟨false⟩), ("p3".toList, ⟨true⟩)]
        ⟨"1.0".toList, "x".toList, [], 0⟩).2) ∧
    (("p1".toList, (⟨true⟩ : StreamHandle)) ∈
      (broadcast_change
        [("p1".toList, ⟨true⟩), ("p2".toList, ⟨false⟩), ("p3".toList, ⟨true⟩)]
        ⟨"1.0".toList, "x".toList, [], 0⟩).2) := by
  have h := broadcast_encodes_once_delivers_evicts
    [("p1".toList, ⟨true⟩), ("p2".toList, ⟨false⟩), ("p3".toList, ⟨true⟩)]
    ⟨"1.0".toList, "x".toList, [], 0⟩
  refine ⟨?_, ?_, ?_, ?_⟩
  · exact h.2.2.1 "p1".toList ⟨true⟩ (by simp) rfl
  · exact h.2.2.1 "p3".toList ⟨true⟩ (by simp) rfl
  · exact h.2.2.2.1 "p2".toList ⟨false⟩ (by simp) rfl
  · exact h.2.2.2.2 (by decide) "p1".toList ⟨true⟩ (by simp) rfl
